import Mathlib

/-!
Verification of the NBA game-dashboard temporal aggregation core.

Shallow embedding, in Lean, of the point-in-time statistics pipeline of the
repository (player trailing averages, daily league rankings, backward as-of
joins and the hit-rate summary table), together with proofs and refutations
of the specified properties.

Mapping of the embedding to the source:

* `shift1`, `expandingMean`, `rollingMean`, `sznAvgPpg`, `r10AvgPpg` —
  the trailing-average transforms of `load_process_pbs` (src/data.py,
  lines 32–43) and `load_process_pbs_from_db` (src/db_queries.py,
  lines 180–191).  pandas `NaN` is `none`; the float arithmetic is modelled
  exactly over `ℚ` (points are integer-valued in the data).
* `PbsRow`, `sortPbs`, `groupRuns`, `processPbs` — the sort and
  groupby-transform framing of the same functions (src/data.py lines 25–43).
  pandas `sort_values` on a list of keys uses a stable lexsort, embedded
  here as a stable insertion sort by the same key.
* `splitOnColon`, `parsePyInt`, `minutesToFloat`, `minutesToFloatDb` — the
  two `minutes_to_float` closures (src/data.py lines 17–21 and
  src/db_queries.py lines 162–169).  Python strings are modelled as
  `List Char`; a raised `ValueError` is `Except.error`.
* `priorGames`, `rankFirst`, `buildRanksForDate` — the per-date loop body of
  `build_ranks` (src/data.py lines 96–122, src/db_queries.py lines 294–320),
  with pandas `rank(method="first")` embedded as `rankFirst`.
* `asofLookup`, `mergeAsofBackward` — the documented semantics of
  `pd.merge_asof(..., by=key, direction="backward")` used in
  src/tables.py lines 85–93 and src/plots/player.py lines 73–80 (the facts
  are daily-rank rows sorted by effective date; the tables path uses the
  rank's own `game_date` as effective date, the plots path uses
  `game_date + 1 day`; in both cases the cutoff is the event's game date).
* `homeAway`, `defBucket`, `hitRow`, `summaryRows`, `playerHitRateSummary` —
  `player_hit_rate_summary` (src/tables.py).  The teammate-absence rows
  (an optional argument, `None` by default) are not modelled; the nine
  always-produced cohort rows are.  Python `round(x, 1)` is embedded as
  exact round-half-to-even at one decimal over `ℚ`.
-/

namespace NBA

/-- Arithmetic mean `sum / count` of a list of rationals, as computed by a
pandas `.mean()` over the present values of a window. -/
def listMean (l : List ℚ) : ℚ := l.sum / l.length

/-- pandas mean of a window of nullable values after the `NaN`s are dropped:
an empty window of present values yields `NaN` (`none`). -/
def meanOpt (l : List ℚ) : Option ℚ := if l.isEmpty then none else some (listMean l)

/-- Embeds `Series.shift(1)`: position `i` holds the value at `i - 1`; position `0`
becomes `NaN`. -/
def shift1 (s : List ℚ) : List (Option ℚ) := (none :: s.map some).take s.length

/-- Embeds `Series.expanding().mean()` (default `min_periods=1`): at position `i`,
the mean of the present values among positions `0..i`. -/
def expandingMean (s : List (Option ℚ)) : List (Option ℚ) :=
  (List.range s.length).map (fun i => meanOpt ((s.take (i+1)).filterMap id))

/-- Embeds `Series.rolling(window, min_periods).mean()`: at position `i`, the mean of
the present values among positions `max(0, i-window+1)..i`, or `NaN` when
fewer than `min_periods` of them are present. -/
def rollingMean (window minPeriods : ℕ) (s : List (Option ℚ)) : List (Option ℚ) :=
  (List.range s.length).map (fun i =>
    if (((s.take (i+1)).drop (i+1-window)).filterMap id).length < minPeriods then none
    else some (listMean (((s.take (i+1)).drop (i+1-window)).filterMap id)))

/-- The `szn_avg_ppg` transform applied by `groupby("personId")["points"]
.transform(...)` to one player's chronological points sequence:
`s.shift(1).expanding().mean()` (src/data.py lines 33–37). -/
def sznAvgPpg (pts : List ℚ) : List (Option ℚ) := expandingMean (shift1 pts)

/-- The `r10_avg_ppg` transform applied to one player's chronological points
sequence: `s.shift(1).rolling(10, min_periods=1).mean()`
(src/data.py lines 39–43). -/
def r10AvgPpg (pts : List ℚ) : List (Option ℚ) := rollingMean 10 1 (shift1 pts)

/-- One raw player box-score row as loaded from the CSV/database: person id,
team code, game id, game date and points.  Dates are day numbers; Python
strings are character lists. -/
structure PbsRow where
  personId : ℕ
  teamTricode : List Char
  gameId : ℕ
  gameDate : ℕ
  points : ℚ
deriving DecidableEq, Repr, Inhabited

/-- The sort key of `pbs.sort_values(["personId", "game_date"])`:
lexicographic on (personId, game_date) only — `game_id` is not part of the
key (src/data.py lines 26–30, src/db_queries.py lines 174–178). -/
def pbsLE (a b : PbsRow) : Prop :=
  a.personId < b.personId ∨ (a.personId = b.personId ∧ a.gameDate ≤ b.gameDate)

instance : DecidableRel pbsLE := fun a b =>
  inferInstanceAs
    (Decidable (a.personId < b.personId ∨ (a.personId = b.personId ∧ a.gameDate ≤ b.gameDate)))

instance : IsTotal PbsRow pbsLE := ⟨fun a b => by unfold pbsLE; omega⟩

instance : IsTrans PbsRow pbsLE := ⟨fun a b c hab hbc => by unfold pbsLE at hab hbc ⊢; omega⟩

/-- Embeds `sort_values(["personId", "game_date"])`: pandas lexsorts a list of keys
with a stable algorithm, keeping the input order of rows whose whole key
ties.  Embedded as a stable insertion sort by the same key. -/
def sortPbs (rows : List PbsRow) : List PbsRow := List.insertionSort pbsLE rows

/-- Maximal runs of consecutive rows with equal `personId`; applied to the
output of `sortPbs` these are exactly the `groupby("personId")` groups. -/
def groupRuns : List PbsRow → List (List PbsRow)
  | [] => []
  | r :: rs =>
    match groupRuns rs with
    | [] => [[r]]
    | g :: gs =>
      match g.head? with
      | some x => if r.personId = x.personId then (r :: g) :: gs else [r] :: g :: gs
      | none => [r] :: gs

/-- Pair each row of one `groupby` group with its `szn_avg_ppg` and
`r10_avg_ppg` values (the two `transform` lambdas applied to the group's
points series). -/
def attachAverages (g : List PbsRow) : List (PbsRow × Option ℚ × Option ℚ) :=
  g.zip ((sznAvgPpg (g.map (fun r => r.points))).zip (r10AvgPpg (g.map (fun r => r.points))))

/-- Embeds `load_process_pbs` after parsing: sort by (personId, game_date), then
attach both trailing-average columns groupwise (src/data.py lines 25–43,
src/db_queries.py lines 173–191). -/
def processPbs (rows : List PbsRow) : List (PbsRow × Option ℚ × Option ℚ) :=
  ((groupRuns (sortPbs rows)).map attachAverages).flatten

/-- Two rows of one player tied on game_date but with distinct game_ids,
used to exhibit the order dependence of `processPbs`. -/
def rowA : PbsRow := ⟨1, ['L', 'A', 'L'], 11, 5, 20⟩

/-- Companion row to `rowA`: same personId and game_date, larger game_id. -/
def rowB : PbsRow := ⟨1, ['L', 'A', 'L'], 12, 5, 10⟩

/-- Python `str.split(":")` on a character-list string: split at every
colon, keeping empty segments (`"".split(":")` is `[""]`). -/
def splitOnColon : List Char → List (List Char)
  | [] => [[]]
  | c :: rest =>
    match splitOnColon rest with
    | [] => [[c]]
    | h :: t => if c = ':' then [] :: h :: t else (c :: h) :: t

/-- Decimal value of a digit string. -/
def digitsToNat (ds : List Char) : ℕ := ds.foldl (fun n c => 10 * n + (c.toNat - 48)) 0

/-- Python `int(s)`: an optional sign followed by digits parses to an
integer, anything else raises `ValueError` (`none` here).  Surrounding
whitespace and underscore separators, never present in "MM:SS" minutes
data, are not modelled. -/
def parsePyInt (s : List Char) : Option ℤ :=
  match s with
  | '-' :: ds => if ds ≠ [] ∧ ds.all Char.isDigit then some (-(digitsToNat ds : ℤ)) else none
  | '+' :: ds => if ds ≠ [] ∧ ds.all Char.isDigit then some (digitsToNat ds : ℤ) else none
  | ds => if ds ≠ [] ∧ ds.all Char.isDigit then some (digitsToNat ds : ℤ) else none

/-- Embeds `minutes_to_float` of src/data.py lines 17–21 (the CSV path).  `none`
input models a pandas `NaN` minutes cell.  `m, s = min_str.split(":")`
raises `ValueError` unless the split has exactly two parts, and `int(...)`
raises on a non-numeric part; a raised exception is `Except.error ()`. -/
def minutesToFloat (minStr : Option (List Char)) : Except Unit (Option ℚ) :=
  match minStr with
  | none => Except.ok none
  | some s =>
    match splitOnColon s with
    | [m, sec] =>
      match parsePyInt m, parsePyInt sec with
      | some mi, some si => Except.ok (some ((mi : ℚ) + (si : ℚ) / 60))
      | _, _ => Except.error ()
    | _ => Except.error ()

/-- Embeds `minutes_to_float` of src/db_queries.py lines 162–169 (the DB path):
additionally treats `""` as missing and catches `ValueError` and
`AttributeError`, returning `None` instead of raising. -/
def minutesToFloatDb (minStr : Option (List Char)) : Option ℚ :=
  match minStr with
  | none => none
  | some s =>
    if s = [] then none
    else
      match splitOnColon s with
      | [m, sec] =>
        match parsePyInt m, parsePyInt sec with
        | some mi, some si => some ((mi : ℚ) + (si : ℚ) / 60)
        | _, _ => none
      | _ => none

/-- One team game-log row after the opponent self-join of
`load_process_tbs`: team code, game id, game date, points scored, points
allowed, matchup string and the win/loss flag (absent when the game has no
final result). -/
structure TbsRow where
  team : List Char
  gameId : ℕ
  gameDate : ℕ
  pts : ℚ
  ptsAllowed : ℚ
  matchup : List Char
  wl : Option (List Char)
deriving DecidableEq, Repr, Inhabited

/-- Embeds `tbs[tbs["GAME_DATE"] < game_date]`: the games strictly before a date
(src/data.py line 97). -/
def priorGames (tbs : List TbsRow) (d : ℕ) : List TbsRow :=
  tbs.filter (fun r => decide (r.gameDate < d))

/-- Lexicographic comparison of character strings — the ascending key order
pandas `groupby(...)` (with its default `sort=True`) lists group keys in. -/
def charsLE : List Char → List Char → Bool
  | [], _ => true
  | _ :: _, [] => false
  | a :: at1, b :: bt1 => if a < b then true else if b < a then false else charsLE at1 bt1

/-- Wraps `charsLE` as a relation, for the sorting of group keys. -/
def charsLEP (a b : List Char) : Prop := charsLE a b = true

instance : DecidableRel charsLEP := fun a b => inferInstanceAs (Decidable (charsLE a b = true))

/-- The group keys of `prior_games.groupby("TEAM_ABBREVIATION")`: the
distinct team codes, in ascending key order. -/
def groupKeys (rows : List TbsRow) : List (List Char) :=
  List.insertionSort charsLEP ((rows.map (fun r => r.team)).dedup)

/-- Whether `j` strictly precedes `i` in pandas `Series.rank(method="first",
ascending=asc)`: `j`'s value is strictly better, or the values tie and `j`
appears first.  (Better = smaller when ascending, larger otherwise.) -/
def precede (asc : Bool) (xs : List ℚ) (j i : ℕ) : Bool :=
  (asc && decide (xs.getD j 0 < xs.getD i 0))
  || (!asc && decide (xs.getD i 0 < xs.getD j 0))
  || (decide (xs.getD j 0 = xs.getD i 0) && decide (j < i))

/-- The 1-based rank `Series.rank(method="first")` assigns to entry `i`:
one plus the number of entries strictly preceding it. -/
def rankAt (asc : Bool) (xs : List ℚ) (i : ℕ) : ℕ :=
  1 + (List.range xs.length).countP (fun j => precede asc xs j i)

/-- pandas `Series.rank(method="first", ascending=asc)` of a whole column
(as integers; pandas reports them as floats). -/
def rankFirst (asc : Bool) (xs : List ℚ) : List ℕ :=
  (List.range xs.length).map (rankAt asc xs)

/-- Mean points scored of one team's prior games (the `avg_pts` aggregate of
`build_ranks`). -/
def teamAvgPts (rows : List TbsRow) (t : List Char) : ℚ :=
  listMean ((rows.filter (fun r => decide (r.team = t))).map (fun r => r.pts))

/-- Mean points allowed of one team's prior games (`avg_pts_allowed`). -/
def teamAvgPtsAllowed (rows : List TbsRow) (t : List Char) : ℚ :=
  listMean ((rows.filter (fun r => decide (r.team = t))).map (fun r => r.ptsAllowed))

/-- One output row of `build_ranks`: per (team, as-of date) the games
played, the two averages, `off_rank`, `def_rank` and the date. -/
structure RankRow where
  team : List Char
  gamesPlayed : ℕ
  avgPts : ℚ
  avgPtsAllowed : ℚ
  offRank : ℕ
  defRank : ℕ
  effDate : ℕ
deriving DecidableEq, Repr, Inhabited

/-- The body of the per-date loop of `build_ranks` (src/data.py lines
96–122, src/db_queries.py lines 294–320): group the games strictly before
`d` by team, aggregate count and the two averages, and rank the averages
with `rank(method="first")` — descending on points scored for `off_rank`,
ascending on points allowed for `def_rank`.  `build_ranks` emits exactly
these rows for every calendar day `d` in [season start, season end + 1]
whose set of prior games is nonempty. -/
def buildRanksForDate (tbs : List TbsRow) (d : ℕ) : List RankRow :=
  let prior := priorGames tbs d
  let teams := groupKeys prior
  let avgPts := teams.map (teamAvgPts prior)
  let avgAll := teams.map (teamAvgPtsAllowed prior)
  let offR := rankFirst false avgPts
  let defR := rankFirst true avgAll
  (List.range teams.length).map (fun i =>
    ⟨teams.getD i [],
      (prior.filter (fun r => decide (r.team = teams.getD i []))).length,
      avgPts.getD i 0, avgAll.getD i 0, offR.getD i 0, defR.getD i 0, d⟩)

/-- A three-team sample game log used as witness input. -/
def tbsSample : List TbsRow :=
  [⟨['B', 'O', 'S'], 1, 1, 110, 100, [], some ['W']⟩,
   ⟨['L', 'A', 'L'], 1, 1, 100, 110, [], some ['L']⟩,
   ⟨['N', 'Y', 'K'], 2, 3, 120, 90, [], some ['W']⟩]

/-- One "event" row of a backward as-of join: the join key (a team code)
and the cutoff date the attachment may not exceed. -/
structure AsofEvent where
  key : List Char
  cutoff : ℕ
deriving DecidableEq, Repr, Inhabited

/-- The attachment `pd.merge_asof(..., by=<key>, direction="backward")`
computes for one event over fact rows sorted ascending by effective date:
the last fact row whose key matches and whose effective date is at or
before the cutoff (`allow_exact_matches=True` is the default), or `none`
(a row of `NaN`s in pandas) when there is none. -/
def asofLookup (facts : List RankRow) (key : List Char) (cutoff : ℕ) : Option RankRow :=
  (facts.filter (fun f => decide (f.team = key) && decide (f.effDate ≤ cutoff))).getLast?

/-- Embeds `pd.merge_asof` over a whole event frame (src/tables.py lines 85–93,
src/plots/player.py lines 73–80): each event row gets its backward
attachment.  The tables path uses the rank row's own `game_date` as its
effective date; the plots path uses `game_date + 1 day`; in both the
cutoff is the event's game date. -/
def mergeAsofBackward (events : List AsofEvent) (facts : List RankRow) :
    List (AsofEvent × Option RankRow) :=
  events.map (fun e => (e, asofLookup facts e.key e.cutoff))

/-- One row of the per-game player frame assembled by
`player_hit_rate_summary` after the team-context merge and the as-of rank
merge: game id and date, the player's points, the team's win/loss flag,
the matchup string and the attached opponent defensive rank (absent when
the as-of join found no rank at or before the game date).  Rows model
games where the team-context merge matched: on an unmatched game the
Python code raises `TypeError` while computing `HOME_AWAY`
(see `joinTeamCtx`). -/
structure PlayerGameRow where
  gameId : ℕ
  gameDate : ℕ
  points : ℚ
  wl : Option (List Char)
  matchup : List Char
  oppDefRank : Option ℚ
deriving DecidableEq, Repr, Inhabited

/-- The `"Season (All Games)"` cohort label. -/
def seasonLabel : List Char :=
  ['S', 'e', 'a', 's', 'o', 'n', ' ', '(', 'A', 'l', 'l', ' ', 'G', 'a', 'm', 'e', 's', ')']

/-- The `"Last 10 Games"` cohort label. -/
def last10Label : List Char := ['L', 'a', 's', 't', ' ', '1', '0', ' ', 'G', 'a', 'm', 'e', 's']

/-- The `"Wins"` cohort label. -/
def winsLabel : List Char := ['W', 'i', 'n', 's']

/-- The `"Losses"` cohort label. -/
def lossesLabel : List Char := ['L', 'o', 's', 's', 'e', 's']

/-- The `"Home"` cohort label. -/
def homeLabel : List Char := ['H', 'o', 'm', 'e']

/-- The `"Away"` cohort label. -/
def awayLabel : List Char := ['A', 'w', 'a', 'y']

/-- The `"Top 10 Defense"` bucket/cohort label. -/
def topDefLabel : List Char :=
  ['T', 'o', 'p', ' ', '1', '0', ' ', 'D', 'e', 'f', 'e', 'n', 's', 'e']

/-- The `"Middle 10 Defense"` bucket/cohort label. -/
def midDefLabel : List Char :=
  ['M', 'i', 'd', 'd', 'l', 'e', ' ', '1', '0', ' ', 'D', 'e', 'f', 'e', 'n', 's', 'e']

/-- The `"Bottom 10 Defense"` bucket/cohort label. -/
def botDefLabel : List Char :=
  ['B', 'o', 't', 't', 'o', 'm', ' ', '1', '0', ' ', 'D', 'e', 'f', 'e', 'n', 's', 'e']

/-- Embeds `"AWAY" if "@" in x else "HOME"` (src/tables.py lines 68–70). -/
def homeAway (matchup : List Char) : List Char :=
  if matchup.contains '@' then ['A', 'W', 'A', 'Y'] else ['H', 'O', 'M', 'E']

/-- Embeds `def_bucket` (src/tables.py lines 161–171): a missing rank gets no
bucket; ranks ≤ 10, ≤ 20 and above get the three tier labels. -/
def defBucket (rank : Option ℚ) : Option (List Char) :=
  match rank with
  | none => none
  | some r =>
    if r ≤ 10 then some topDefLabel
    else if r ≤ 20 then some midDefLabel
    else some botDefLabel

/-- Round to the nearest integer, ties to even — the rounding of Python's
built-in `round`.  (CPython's `round(x, 1)` rounds a binary float; the
embedding uses the exact decimal semantics over `ℚ`.) -/
def roundHalfEven (q : ℚ) : ℤ :=
  if q - ⌊q⌋ < 1/2 then ⌊q⌋
  else if 1/2 < q - ⌊q⌋ then ⌊q⌋ + 1
  else if ⌊q⌋ % 2 = 0 then ⌊q⌋ else ⌊q⌋ + 1

/-- Python `round(q, 1)`. -/
def roundTo1 (q : ℚ) : ℚ := (roundHalfEven (q * 10) : ℚ) / 10

/-- Embeds `player_df["hit"] = player_df["points"] > prop_line` (src/tables.py
line 159): note the strict inequality. -/
def hitFlag (propLine : ℚ) (r : PlayerGameRow) : Bool := decide (propLine < r.points)

/-- One output row of the summary table: Category, Games, Hit Rate (%). -/
structure SummaryRow where
  label : List Char
  games : ℕ
  hitRate : Option ℚ
deriving DecidableEq, Repr, Inhabited

/-- Embeds `hit_row` (src/tables.py lines 177–188): an empty cohort reports 0
games and a null hit rate; otherwise the cohort size and
`round(df["hit"].mean() * 100, 1)`. -/
def hitRow (propLine : ℚ) (df : List PlayerGameRow) (label : List Char) : SummaryRow :=
  if df.length = 0 then ⟨label, 0, none⟩
  else ⟨label, df.length,
    some (roundTo1 (listMean (df.map (fun r => if hitFlag propLine r then (1 : ℚ) else 0)) * 100))⟩

/-- The nine always-emitted rows of `player_hit_rate_summary`
(src/tables.py lines 190–231) in source order: season, last 10 (the last
ten rows of the date-sorted frame, `player_df.tail(10)`), wins, losses,
home, away and the three defense tiers.  The teammate rows of the optional
`teammates` argument (default `None`) are not modelled. -/
def summaryRows (propLine : ℚ) (df : List PlayerGameRow) : List SummaryRow :=
  [hitRow propLine df seasonLabel,
   hitRow propLine (df.drop (df.length - 10)) last10Label,
   hitRow propLine (df.filter (fun r => decide (r.wl = some ['W']))) winsLabel,
   hitRow propLine (df.filter (fun r => decide (r.wl = some ['L']))) lossesLabel,
   hitRow propLine (df.filter (fun r => decide (homeAway r.matchup = ['H', 'O', 'M', 'E']))) homeLabel,
   hitRow propLine (df.filter (fun r => decide (homeAway r.matchup = ['A', 'W', 'A', 'Y']))) awayLabel,
   hitRow propLine (df.filter (fun r => decide (defBucket r.oppDefRank = some topDefLabel))) topDefLabel,
   hitRow propLine (df.filter (fun r => decide (defBucket r.oppDefRank = some midDefLabel))) midDefLabel,
   hitRow propLine (df.filter (fun r => decide (defBucket r.oppDefRank = some botDefLabel))) botDefLabel]

/-- Python exceptions `player_hit_rate_summary` can raise. -/
inductive PyErr where
  | indexError : PyErr
  | typeError : PyErr
deriving DecidableEq, Repr

/-- Embeds `MATCHUP.str[-3:]`: the last three characters, the opponent code. -/
def oppOfMatchup (m : List Char) : List Char := m.drop (m.length - 3)

/-- Sort key of `player_df.sort_values("game_date_dt")`. -/
def dateLE (a b : PbsRow) : Prop := a.gameDate ≤ b.gameDate

instance : DecidableRel dateLE := fun a b => inferInstanceAs (Decidable (a.gameDate ≤ b.gameDate))

/-- Steps 2–5 of `player_hit_rate_summary` (src/tables.py lines 50–171)
for each player row: the `how="left"` merge with the team's game rows on
game id, `HOME_AWAY`/opponent derivation from the matchup, and the
backward as-of attachment of the opponent's defensive rank as of the game
date.  A game with no matching team row leaves `MATCHUP` as `NaN`, so the
`HOME_AWAY` lambda raises `TypeError`; the first matching team row is
taken (the merge key is unique in a well-formed log). -/
def joinTeamCtx (playerDf : List PbsRow) (tbs : List TbsRow) (teamAbbrev : List Char)
    (facts : List RankRow) : Except PyErr (List PlayerGameRow) :=
  playerDf.mapM (fun p =>
    match (tbs.filter (fun t =>
        decide (t.team = teamAbbrev) && decide (t.gameId = p.gameId))).head? with
    | none => Except.error PyErr.typeError
    | some t =>
      Except.ok ⟨p.gameId, p.gameDate, p.points, t.wl, t.matchup,
        (asofLookup facts (oppOfMatchup t.matchup) p.gameDate).map (fun f => (f.defRank : ℚ))⟩)

/-- Embeds `player_hit_rate_summary(player_id, prop_line, pbs, tbs, daily_ranks)`
with the default `teammates=None` (src/tables.py lines 36–231): filter the
box scores to the player, take the player's team from the first row —
`.iloc[0]`, which raises `IndexError` when the player has zero rows —
sort by game date, merge the team context and produce the summary rows. -/
def playerHitRateSummary (playerId : ℕ) (propLine : ℚ) (pbs : List PbsRow)
    (tbs : List TbsRow) (dailyRanks : List RankRow) : Except PyErr (List SummaryRow) :=
  let playerDf := pbs.filter (fun r => decide (r.personId = playerId))
  match playerDf.head? with
  | none => Except.error PyErr.indexError
  | some firstRow =>
    match joinTeamCtx (List.insertionSort dateLE playerDf) tbs firstRow.teamTricode dailyRanks with
    | Except.error e => Except.error e
    | Except.ok rows => Except.ok (summaryRows propLine rows)

/-- Sample as-of fact rows (daily ranks), sorted by effective date. -/
def ranksSample : List RankRow :=
  [⟨['B', 'O', 'S'], 1, 105, 99, 2, 1, 3⟩,
   ⟨['B', 'O', 'S'], 2, 107, 98, 1, 1, 4⟩,
   ⟨['N', 'Y', 'K'], 1, 99, 101, 3, 2, 6⟩]

/-- Sample as-of events: one with two valid facts, one with none. -/
def eventsSample : List AsofEvent := [⟨['B', 'O', 'S'], 5⟩, ⟨['N', 'Y', 'K'], 5⟩]

/-- A player game whose points land exactly on the prop line of 30. -/
def gameRowEq : PlayerGameRow :=
  ⟨100, 1, 30, some ['W'], ['L', 'A', 'L', ' ', 'v', 's', '.', ' ', 'B', 'O', 'S'], some 5⟩

/-- A player game whose as-of join attached no defensive rank. -/
def gameRowNone : PlayerGameRow :=
  ⟨101, 2, 20, some ['L'], ['L', 'A', 'L', ' ', '@', ' ', 'B', 'O', 'S'], none⟩

/-- A one-row player box score for a player other than the one queried. -/
def pbsOther : List PbsRow := [⟨7, ['L', 'A', 'L'], 100, 1, 25⟩]

theorem shift1_length (pts : List ℚ) : (shift1 pts).length = pts.length := by
  simp [shift1]

theorem sznAvgPpg_length (pts : List ℚ) : (sznAvgPpg pts).length = pts.length := by
  simp [sznAvgPpg, expandingMean, shift1]

theorem r10AvgPpg_length (pts : List ℚ) : (r10AvgPpg pts).length = pts.length := by
  simp [r10AvgPpg, rollingMean, shift1]

theorem shift1_take (pts : List ℚ) (i : ℕ) (h : i < pts.length) :
    (shift1 pts).take (i+1) = none :: (pts.take i).map some := by
  rw [shift1, List.take_take, min_eq_left (by omega), List.take_succ_cons, List.map_take]

theorem filterMap_id_map_some (l : List ℚ) : (l.map some).filterMap id = l := by
  simp

theorem take_ne_nil_of_pos (pts : List ℚ) (i : ℕ) (h0 : 0 < i) (h : i < pts.length) :
    pts.take i ≠ [] := by
  apply List.ne_nil_of_length_pos
  simp only [List.length_take]
  omega

theorem sznAvgPpg_getD (pts : List ℚ) (i : ℕ) (h0 : 0 < i) (hi : i < pts.length) :
    (sznAvgPpg pts).getD i none = some (listMean (pts.take i)) := by
  have hs : i < (shift1 pts).length := by rw [shift1_length]; exact hi
  rw [List.getD_eq_getElem?_getD, sznAvgPpg, expandingMean]
  rw [List.getElem?_map, List.getElem?_range hs]
  simp only [Option.map_some', Option.getD_some]
  rw [shift1_take pts i hi, List.filterMap_cons_none rfl, filterMap_id_map_some]
  simp [meanOpt, take_ne_nil_of_pos pts i h0 hi]

theorem sznAvgPpg_getD_zero (pts : List ℚ) (h : pts ≠ []) :
    (sznAvgPpg pts).getD 0 none = none := by
  have hlen : 0 < pts.length := List.length_pos_of_ne_nil h
  have hs : 0 < (shift1 pts).length := by rw [shift1_length]; exact hlen
  rw [List.getD_eq_getElem?_getD, sznAvgPpg, expandingMean]
  rw [List.getElem?_map, List.getElem?_range hs]
  simp only [Option.map_some', Option.getD_some]
  rw [shift1_take pts 0 hlen]
  simp [meanOpt]

theorem rolling_window_eq (pts : List ℚ) (i : ℕ) (h0 : 0 < i) (hi : i < pts.length) :
    (((shift1 pts).take (i+1)).drop (i+1-10)).filterMap id = (pts.take i).drop (i-10) := by
  rw [shift1_take pts i hi]
  rcases Nat.lt_or_ge i 10 with hcase | hcase
  · have e1 : i + 1 - 10 = 0 := by omega
    have e2 : i - 10 = 0 := by omega
    rw [e1, e2, List.drop_zero, List.drop_zero, List.filterMap_cons_none rfl,
      filterMap_id_map_some]
  · have e1 : i + 1 - 10 = (i - 10) + 1 := by omega
    rw [e1, List.drop_succ_cons, ← List.map_drop, filterMap_id_map_some]

theorem rolling_window_length (pts : List ℚ) (i : ℕ) (_h0 : 0 < i) (hi : i < pts.length) :
    ((pts.take i).drop (i-10)).length = i - (i - 10) := by
  simp only [List.length_drop, List.length_take]
  omega

theorem r10AvgPpg_getD (pts : List ℚ) (i : ℕ) (h0 : 0 < i) (hi : i < pts.length) :
    (r10AvgPpg pts).getD i none = some (listMean ((pts.take i).drop (i-10))) := by
  have hs : i < (shift1 pts).length := by rw [shift1_length]; exact hi
  rw [List.getD_eq_getElem?_getD, r10AvgPpg, rollingMean]
  rw [List.getElem?_map, List.getElem?_range hs]
  simp only [Option.map_some', Option.getD_some]
  rw [rolling_window_eq pts i h0 hi]
  rw [if_neg (by rw [rolling_window_length pts i h0 hi]; omega)]

theorem r10AvgPpg_getD_zero (pts : List ℚ) (h : pts ≠ []) :
    (r10AvgPpg pts).getD 0 none = none := by
  have hlen : 0 < pts.length := List.length_pos_of_ne_nil h
  have hs : 0 < (shift1 pts).length := by rw [shift1_length]; exact hlen
  rw [List.getD_eq_getElem?_getD, r10AvgPpg, rollingMean]
  rw [List.getElem?_map, List.getElem?_range hs]
  simp only [Option.map_some', Option.getD_some]
  rw [shift1_take pts 0 hlen]
  simp

/-- Claim C1. —  For every player points sequence (the chronologically sorted
sequence a player's group is given to the `groupby("personId")` transform)
and every position `i`, the computed season average at `i` is the arithmetic
mean of the points at positions `0..i-1` (absent at `i = 0`), and the rolling
average at `i` is the arithmetic mean of the points at positions
`max(0, i-10)..i-1` (absent at `i = 0`, a single prior game sufficing at
`i = 1`).  The value at position `i` itself enters neither average. -/
theorem trailing_averages_strictly_causal (pts : List ℚ) (i : ℕ) (hi : i < pts.length) :
    (sznAvgPpg pts).getD i none
      = (if i = 0 then none else some (listMean (pts.take i)))
    ∧ (r10AvgPpg pts).getD i none
      = (if i = 0 then none else some (listMean ((pts.take i).drop (i-10)))) := by
  rcases Nat.eq_zero_or_pos i with h0 | h0
  · subst h0
    have hne : pts ≠ [] := List.ne_nil_of_length_pos (by omega)
    rw [if_pos rfl, sznAvgPpg_getD_zero pts hne, r10AvgPpg_getD_zero pts hne]
    exact ⟨rfl, rfl⟩
  · rw [if_neg (by omega), if_neg (by omega), sznAvgPpg_getD pts i h0 hi,
      r10AvgPpg_getD pts i h0 hi]
    exact ⟨rfl, rfl⟩

/-- Witness for C1 at the spec's scenario (games of 10, 20, 30 points):
at the third game both averages are the mean of the two prior games, 15. -/
theorem trailing_averages_strictly_causal_witness :
    (2 < ([10, 20, 30] : List ℚ).length)
    ∧ ((sznAvgPpg [10, 20, 30]).getD 2 none
        = (if 2 = 0 then none else some (listMean (([10, 20, 30] : List ℚ).take 2)))
      ∧ (r10AvgPpg [10, 20, 30]).getD 2 none
        = (if 2 = 0 then none else some (listMean ((([10, 20, 30] : List ℚ).take 2).drop (2-10)))))
    ∧ listMean (([10, 20, 30] : List ℚ).take 2) = 15 :=
  ⟨by norm_num, trailing_averages_strictly_causal [10, 20, 30] 2 (by norm_num),
    by norm_num [listMean]⟩

/-- Claim C9. —  Perturbing only the points value at position `i > 0` of a
player's chronological sequence changes neither the season average nor the
rolling average reported at position `i`: both depend only on positions
strictly before `i`. -/
theorem trailing_averages_no_leakage (pts pts' : List ℚ) (i : ℕ)
    (h0 : 0 < i) (hi : i < pts.length) (hlen : pts'.length = pts.length)
    (hagree : ∀ j, j ≠ i → pts[j]? = pts'[j]?) :
    (sznAvgPpg pts).getD i none = (sznAvgPpg pts').getD i none
    ∧ (r10AvgPpg pts).getD i none = (r10AvgPpg pts').getD i none := by
  have htake : pts.take i = pts'.take i := by
    apply List.ext_getElem?
    intro j
    by_cases hj : j < i
    · rw [List.getElem?_take_of_lt hj, List.getElem?_take_of_lt hj, hagree j (by omega)]
    · rw [List.getElem?_eq_none (by simp only [List.length_take]; omega),
        List.getElem?_eq_none (by simp only [List.length_take]; omega)]
  have hi' : i < pts'.length := by omega
  rw [sznAvgPpg_getD pts i h0 hi, sznAvgPpg_getD pts' i h0 hi',
    r10AvgPpg_getD pts i h0 hi, r10AvgPpg_getD pts' i h0 hi', htake]
  exact ⟨rfl, rfl⟩

/-- Witness for C9: changing the third game's points from 30 to 50 leaves the
averages shown at the third game unchanged. -/
theorem trailing_averages_no_leakage_witness :
    (0 < 2 ∧ 2 < ([10, 20, 30] : List ℚ).length
      ∧ ([10, 20, 50] : List ℚ).length = ([10, 20, 30] : List ℚ).length)
    ∧ ((sznAvgPpg [10, 20, 30]).getD 2 none = (sznAvgPpg [10, 20, 50]).getD 2 none
      ∧ (r10AvgPpg [10, 20, 30]).getD 2 none = (r10AvgPpg [10, 20, 50]).getD 2 none) :=
  ⟨⟨by norm_num, by norm_num, rfl⟩,
    trailing_averages_no_leakage [10, 20, 30] [10, 20, 50] 2 (by norm_num) (by norm_num) rfl
      (fun j hj => by
        match j with
        | 0 => rfl
        | 1 => rfl
        | 2 => exact absurd rfl hj
        | (n+3) => rfl)⟩

/-- Claim C4, counterexample. —  The pipeline sorts only by
(personId, game_date): two runs over the same input rows in different
initial orders produce different average columns, because a tie on
game_date is kept in input order instead of being broken by game_id. -/
theorem sort_not_keyed_on_gameId_counterexample :
    List.Perm [rowB, rowA] [rowA, rowB]
    ∧ processPbs [rowB, rowA] ≠ processPbs [rowA, rowB] := by
  constructor
  · exact List.Perm.swap rowA rowB []
  · norm_num [processPbs, sortPbs, groupRuns, attachAverages, List.insertionSort,
      List.orderedInsert, pbsLE, rowA, rowB, sznAvgPpg, r10AvgPpg, expandingMean,
      rollingMean, shift1, meanOpt, listMean, List.range_succ, List.filterMap_cons]

/-- Claim C4, amended. —  Before the averages are computed the records are
stably sorted by (personId, game_date) — a permutation of the input that is
sorted under `pbsLE` — but game_id is not part of the key, so rows tied on
(personId, game_date) stay in input order and only runs over the same
initial order are guaranteed identical output. -/
theorem sortPbs_sorted_and_permutes (rows : List PbsRow) :
    List.Sorted pbsLE (sortPbs rows) ∧ List.Perm (sortPbs rows) rows :=
  ⟨List.sorted_insertionSort pbsLE rows, List.perm_insertionSort pbsLE rows⟩

/-- Claim C6, counterexample. —  The CSV-path normalizer raises (rather than
returning an absent value) on an empty minutes string: `"".split(":")`
yields one part, so tuple unpacking raises `ValueError` and the whole
`.apply` aborts.  The DB-path variant returns an absent value instead. -/
theorem csv_minutes_raises_on_empty_string :
    minutesToFloat (some []) = Except.error ()
    ∧ minutesToFloat (some []) ≠ Except.ok none
    ∧ minutesToFloat (some []) ≠ Except.ok (some 0)
    ∧ minutesToFloatDb (some []) = none := by
  refine ⟨rfl, ?_, ?_, rfl⟩ <;> intro h <;> exact Except.noConfusion h

/-- Claim C6, amended. —  On a well-formed "MM:SS" string both normalizers
return `MM + SS/60`; missing input yields an absent value in both; and the
DB-path normalizer equals the CSV-path normalizer with any raised
`ValueError` recovered to an absent value — in particular on empty or
unparseable present strings the CSV path raises while the DB path returns
`none`, never zero. -/
theorem minutes_normalizer_parses_and_db_recovers
    (str m sec : List Char) (mi si : ℤ)
    (hsplit : splitOnColon str = [m, sec])
    (hm : parsePyInt m = some mi) (hs : parsePyInt sec = some si) :
    minutesToFloat (some str) = Except.ok (some ((mi : ℚ) + (si : ℚ) / 60))
    ∧ minutesToFloatDb (some str) = some ((mi : ℚ) + (si : ℚ) / 60)
    ∧ minutesToFloat none = Except.ok none
    ∧ ∀ x : Option (List Char),
        minutesToFloatDb x
          = (match minutesToFloat x with
              | Except.ok v => v
              | Except.error _ => none) := by
  have hstr : str ≠ [] := by
    intro hnil
    subst hnil
    simp [splitOnColon] at hsplit
  refine ⟨?_, ?_, rfl, ?_⟩
  · simp [minutesToFloat, hsplit, hm, hs]
  · simp [minutesToFloatDb, hstr, hsplit, hm, hs]
  · intro x
    match x with
    | none => rfl
    | some s =>
      by_cases hnil : s = []
      · subst hnil; rfl
      · simp only [minutesToFloatDb, minutesToFloat, if_neg hnil]
        rcases hsp : splitOnColon s with _ | ⟨m1, _ | ⟨s1, _ | ⟨t1, r1⟩⟩⟩
        · rfl
        · rfl
        · rcases hm1 : parsePyInt m1 with _ | mi1 <;>
            rcases hs1 : parsePyInt s1 with _ | si1 <;>
              simp [hm1, hs1]
        · rfl

/-- Witness for C6 (amended): the string "34:56" parses to 34 + 56/60 in
both normalizers. -/
theorem minutes_normalizer_parses_and_db_recovers_witness :
    (splitOnColon ['3', '4', ':', '5', '6'] = [['3', '4'], ['5', '6']]
      ∧ parsePyInt ['3', '4'] = some 34 ∧ parsePyInt ['5', '6'] = some 56)
    ∧ (minutesToFloat (some ['3', '4', ':', '5', '6'])
          = Except.ok (some ((34 : ℚ) + (56 : ℚ) / 60))
      ∧ minutesToFloatDb (some ['3', '4', ':', '5', '6'])
          = some ((34 : ℚ) + (56 : ℚ) / 60)
      ∧ minutesToFloat none = Except.ok none
      ∧ ∀ x : Option (List Char),
          minutesToFloatDb x
            = (match minutesToFloat x with
                | Except.ok v => v
                | Except.error _ => none)) :=
  ⟨⟨rfl, rfl, rfl⟩,
    minutes_normalizer_parses_and_db_recovers ['3', '4', ':', '5', '6'] ['3', '4'] ['5', '6']
      34 56 rfl rfl rfl⟩

theorem precede_irrefl (asc : Bool) (xs : List ℚ) (i : ℕ) : precede asc xs i i = false := by
  cases asc <;> simp [precede]

theorem precede_trans (asc : Bool) (xs : List ℚ) (k i j : ℕ)
    (hki : precede asc xs k i = true) (hij : precede asc xs i j = true) :
    precede asc xs k j = true := by
  cases asc <;>
    simp only [precede, Bool.or_eq_true, Bool.and_eq_true, decide_eq_true_eq,
      Bool.not_false, Bool.not_true, Bool.true_and, Bool.false_and, Bool.false_or,
      Bool.or_false] at hki hij ⊢
  · rcases hki with h1 | ⟨e1, l1⟩ <;> rcases hij with h2 | ⟨e2, l2⟩
    · exact Or.inl (lt_trans h2 h1)
    · exact Or.inl (by rw [e2] at h1; exact h1)
    · exact Or.inl (by rw [e1]; exact h2)
    · exact Or.inr ⟨e1.trans e2, lt_trans l1 l2⟩
  · rcases hki with h1 | ⟨e1, l1⟩ <;> rcases hij with h2 | ⟨e2, l2⟩
    · exact Or.inl (lt_trans h1 h2)
    · exact Or.inl (by rw [← e2]; exact h1)
    · exact Or.inl (by rw [← e1] at h2; exact h2)
    · exact Or.inr ⟨e1.trans e2, lt_trans l1 l2⟩

theorem precede_total (asc : Bool) (xs : List ℚ) (i j : ℕ) (h : i ≠ j) :
    precede asc xs i j = true ∨ precede asc xs j i = true := by
  cases asc <;>
    simp only [precede, Bool.or_eq_true, Bool.and_eq_true, decide_eq_true_eq,
      Bool.not_false, Bool.not_true, Bool.true_and, Bool.false_and, Bool.false_or,
      Bool.or_false] <;>
    rcases lt_trichotomy (xs.getD i 0) (xs.getD j 0) with hv | hv | hv
  · exact Or.inr (Or.inl hv)
  · rcases Nat.lt_or_gt_of_ne h with hij | hij
    · exact Or.inl (Or.inr ⟨hv, hij⟩)
    · exact Or.inr (Or.inr ⟨hv.symm, hij⟩)
  · exact Or.inl (Or.inl hv)
  · exact Or.inl (Or.inl hv)
  · rcases Nat.lt_or_gt_of_ne h with hij | hij
    · exact Or.inl (Or.inr ⟨hv, hij⟩)
    · exact Or.inr (Or.inr ⟨hv.symm, hij⟩)
  · exact Or.inr (Or.inl hv)

theorem countP_lt_of_pointwise {α : Type} (l : List α) (p q : α → Bool)
    (hmono : ∀ a ∈ l, p a = true → q a = true) (i : α) (hi : i ∈ l)
    (hpi : p i = false) (hqi : q i = true) : l.countP p < l.countP q := by
  induction l with
  | nil => cases hi
  | cons a t ih =>
    rw [List.countP_cons, List.countP_cons]
    have hmt : ∀ x ∈ t, p x = true → q x = true :=
      fun x hx => hmono x (List.mem_cons_of_mem a hx)
    have hle : t.countP p ≤ t.countP q := List.countP_mono_left hmt
    rcases List.mem_cons.mp hi with rfl | hit
    · rw [hpi, hqi]
      simp only [Bool.false_eq_true, if_false, if_true]
      omega
    · have hlt := ih hmt hit
      by_cases hpa : p a = true
      · rw [if_pos hpa, if_pos (hmono a (List.mem_cons_self a t) hpa)]
        omega
      · rw [if_neg hpa]
        by_cases hqa : q a = true
        · rw [if_pos hqa]; omega
        · rw [if_neg hqa]; omega

theorem rankAt_pos (asc : Bool) (xs : List ℚ) (i : ℕ) : 1 ≤ rankAt asc xs i :=
  Nat.le_add_right 1 _

theorem rankAt_le (asc : Bool) (xs : List ℚ) (i : ℕ) (hi : i < xs.length) :
    rankAt asc xs i ≤ xs.length := by
  have hmem : i ∈ List.range xs.length := List.mem_range.mpr hi
  have hne : (List.range xs.length).countP (fun j => precede asc xs j i)
      ≠ (List.range xs.length).length := by
    intro he
    have hall := List.countP_eq_length.mp he i hmem
    rw [precede_irrefl] at hall
    exact Bool.noConfusion hall
  have hle := List.countP_le_length (p := fun j => precede asc xs j i)
    (l := List.range xs.length)
  have hlt := lt_of_le_of_ne hle hne
  rw [List.length_range] at hlt
  unfold rankAt
  omega

theorem rankAt_lt_of_precede (asc : Bool) (xs : List ℚ) (i j : ℕ) (hi : i < xs.length)
    (hij : precede asc xs i j = true) : rankAt asc xs i < rankAt asc xs j := by
  have hcount := countP_lt_of_pointwise (List.range xs.length)
    (fun k => precede asc xs k i) (fun k => precede asc xs k j)
    (fun k _ hk => precede_trans asc xs k i j hk hij)
    i (List.mem_range.mpr hi) (precede_irrefl asc xs i) hij
  unfold rankAt
  omega

theorem rankAt_inj (asc : Bool) (xs : List ℚ) (i j : ℕ) (hi : i < xs.length)
    (hj : j < xs.length) (he : rankAt asc xs i = rankAt asc xs j) : i = j := by
  by_contra hne
  rcases precede_total asc xs i j hne with h | h
  · exact absurd he (Nat.ne_of_lt (rankAt_lt_of_precede asc xs i j hi h))
  · exact absurd he.symm (Nat.ne_of_lt (rankAt_lt_of_precede asc xs j i hj h))

theorem rankFirst_length (asc : Bool) (xs : List ℚ) :
    (rankFirst asc xs).length = xs.length := by
  simp [rankFirst]

theorem rankFirst_perm (asc : Bool) (xs : List ℚ) :
    List.Perm (rankFirst asc xs) (List.range' 1 xs.length) := by
  have hnodup : (rankFirst asc xs).Nodup := by
    apply List.Nodup.map_on
    · intro a ha b hb hab
      exact rankAt_inj asc xs a b (List.mem_range.mp ha) (List.mem_range.mp hb) hab
    · exact List.nodup_range xs.length
  have hsub : rankFirst asc xs ⊆ List.range' 1 xs.length := by
    intro r hr
    rcases List.mem_map.mp hr with ⟨i, hi, rfl⟩
    have h1 := rankAt_pos asc xs i
    have h2 := rankAt_le asc xs i (List.mem_range.mp hi)
    exact List.mem_range'_1.mpr ⟨h1, by omega⟩
  have hlen : (List.range' 1 xs.length).length ≤ (rankFirst asc xs).length := by
    simp [rankFirst]
  exact (List.subperm_of_subset hnodup hsub).perm_of_length_le hlen

theorem map_getD_range {α : Type} (l : List α) (d : α) :
    (List.range l.length).map (fun i => l.getD i d) = l := by
  induction l with
  | nil => rfl
  | cons a t ih =>
    rw [List.length_cons, List.range_succ_eq_map, List.map_cons, List.map_map]
    have hcomp : ((fun i => (a :: t).getD i d) ∘ Nat.succ) = fun i => t.getD i d := by
      funext i
      simp [List.getD_cons_succ]
    rw [hcomp, ih]
    simp [List.getD_cons_zero]

/-- Claim C3. —  For every as-of date the ranking builder emits (a date with a
nonempty set of strictly prior games), the offense ranks it assigns are
exactly a permutation of `{1, ..., K}` — no duplicates, no gaps — where `K`
is the number of distinct teams with at least one game strictly before that
date; likewise for the defense ranks. -/
theorem daily_rank_bijection (tbs : List TbsRow) (d : ℕ)
    (_hne : priorGames tbs d ≠ []) :
    List.Perm ((buildRanksForDate tbs d).map (fun r => r.offRank))
      (List.range' 1 (((priorGames tbs d).map (fun r => r.team)).dedup.length))
    ∧ List.Perm ((buildRanksForDate tbs d).map (fun r => r.defRank))
      (List.range' 1 (((priorGames tbs d).map (fun r => r.team)).dedup.length)) := by
  have hkey : (groupKeys (priorGames tbs d)).length
      = ((priorGames tbs d).map (fun r => r.team)).dedup.length :=
    (List.perm_insertionSort charsLEP _).length_eq
  constructor
  · have hoff : (buildRanksForDate tbs d).map (fun r => r.offRank)
        = rankFirst false
            ((groupKeys (priorGames tbs d)).map (teamAvgPts (priorGames tbs d))) := by
      simp only [buildRanksForDate, List.map_map]
      have hgd := map_getD_range
        (rankFirst false
          ((groupKeys (priorGames tbs d)).map (teamAvgPts (priorGames tbs d)))) 0
      rw [rankFirst_length, List.length_map] at hgd
      exact hgd
    rw [hoff]
    have hp := rankFirst_perm false
      ((groupKeys (priorGames tbs d)).map (teamAvgPts (priorGames tbs d)))
    rw [List.length_map, hkey] at hp
    exact hp
  · have hdef : (buildRanksForDate tbs d).map (fun r => r.defRank)
        = rankFirst true
            ((groupKeys (priorGames tbs d)).map (teamAvgPtsAllowed (priorGames tbs d))) := by
      simp only [buildRanksForDate, List.map_map]
      have hgd := map_getD_range
        (rankFirst true
          ((groupKeys (priorGames tbs d)).map (teamAvgPtsAllowed (priorGames tbs d)))) 0
      rw [rankFirst_length, List.length_map] at hgd
      exact hgd
    rw [hdef]
    have hp := rankFirst_perm true
      ((groupKeys (priorGames tbs d)).map (teamAvgPtsAllowed (priorGames tbs d)))
    rw [List.length_map, hkey] at hp
    exact hp

/-- Witness for C3: a three-team log, ranked as of day 5. -/
theorem daily_rank_bijection_witness :
    (priorGames tbsSample 5 ≠ [])
    ∧ (List.Perm ((buildRanksForDate tbsSample 5).map (fun r => r.offRank))
        (List.range' 1 (((priorGames tbsSample 5).map (fun r => r.team)).dedup.length))
      ∧ List.Perm ((buildRanksForDate tbsSample 5).map (fun r => r.defRank))
        (List.range' 1 (((priorGames tbsSample 5).map (fun r => r.team)).dedup.length))) :=
  ⟨by decide, daily_rank_bijection tbsSample 5 (by decide)⟩

theorem getLast?_le_of_pairwise (l : List RankRow)
    (hp : l.Pairwise (fun a b => a.effDate ≤ b.effDate)) (a : RankRow) (ha : a ∈ l)
    (b : RankRow) (hb : l.getLast? = some b) : a.effDate ≤ b.effDate := by
  induction l with
  | nil => cases ha
  | cons x t ih =>
    rcases t with _ | ⟨y, t2⟩
    · have hab : a = x := List.mem_singleton.mp ha
      rw [List.getLast?_singleton] at hb
      rw [hab, Option.some_inj.mp hb]
    · rw [List.getLast?_cons_cons] at hb
      rcases List.mem_cons.mp ha with rfl | hat
      · have hbmem : b ∈ y :: t2 := List.mem_of_getLast?_eq_some hb
        exact (List.pairwise_cons.mp hp).1 b hbmem
      · exact ih (List.pairwise_cons.mp hp).2 hat hb

/-- Claim C2. —  For every joined event of the backward as-of engine (fact rows
sorted ascending by effective date, as both call sites arrange), the
attached daily-rank fact matches the event's key, its effective date is at
or before the event's cutoff date, and no fact for the same key with an
effective date at or before the cutoff has a later effective date than the
attached one; when no such fact exists, the attachment is `none`, never a
default. -/
theorem asof_attaches_latest_at_or_before_cutoff (events : List AsofEvent)
    (facts : List RankRow)
    (hs : facts.Pairwise (fun a b => a.effDate ≤ b.effDate)) :
    ∀ p ∈ mergeAsofBackward events facts,
      (∀ f : RankRow, p.2 = some f →
        f.team = p.1.key ∧ f.effDate ≤ p.1.cutoff
        ∧ ∀ g ∈ facts, g.team = p.1.key → g.effDate ≤ p.1.cutoff → g.effDate ≤ f.effDate)
      ∧ (p.2 = none → ∀ g ∈ facts, g.team = p.1.key → ¬ g.effDate ≤ p.1.cutoff) := by
  intro p hp
  rcases List.mem_map.mp hp with ⟨e, _he, rfl⟩
  dsimp only
  constructor
  · intro f hf
    have hfmem := List.mem_of_getLast?_eq_some hf
    have hfprop := List.mem_filter.mp hfmem
    have hcond := hfprop.2
    rw [Bool.and_eq_true, decide_eq_true_eq, decide_eq_true_eq] at hcond
    refine ⟨hcond.1, hcond.2, ?_⟩
    intro g hg hgk hgc
    have hgcond : (decide (g.team = e.key) && decide (g.effDate ≤ e.cutoff)) = true := by
      rw [Bool.and_eq_true, decide_eq_true_eq, decide_eq_true_eq]
      exact ⟨hgk, hgc⟩
    have hgmem : g ∈ facts.filter
        (fun f => decide (f.team = e.key) && decide (f.effDate ≤ e.cutoff)) :=
      List.mem_filter.mpr ⟨hg, hgcond⟩
    have hpair : (facts.filter
        (fun f => decide (f.team = e.key) && decide (f.effDate ≤ e.cutoff))).Pairwise
          (fun a b => a.effDate ≤ b.effDate) :=
      List.Pairwise.sublist (List.filter_sublist facts) hs
    exact getLast?_le_of_pairwise _ hpair g hgmem f hf
  · intro hnone g hg hgk hgc
    have hempty := List.getLast?_eq_none_iff.mp hnone
    have := List.filter_eq_nil_iff.mp hempty g hg
    rw [Bool.and_eq_true, decide_eq_true_eq, decide_eq_true_eq] at this
    exact this ⟨hgk, hgc⟩

/-- Witness for C2: two facts for one key (the later one must be attached)
and a key whose only fact lies after the cutoff (attachment must be null). -/
theorem asof_attaches_latest_at_or_before_cutoff_witness :
    (ranksSample.Pairwise (fun a b => a.effDate ≤ b.effDate))
    ∧ (∀ p ∈ mergeAsofBackward eventsSample ranksSample,
        (∀ f : RankRow, p.2 = some f →
          f.team = p.1.key ∧ f.effDate ≤ p.1.cutoff
          ∧ ∀ g ∈ ranksSample, g.team = p.1.key → g.effDate ≤ p.1.cutoff →
              g.effDate ≤ f.effDate)
        ∧ (p.2 = none → ∀ g ∈ ranksSample, g.team = p.1.key → ¬ g.effDate ≤ p.1.cutoff)) :=
  ⟨by decide, asof_attaches_latest_at_or_before_cutoff eventsSample ranksSample (by decide)⟩

theorem sum_indicator (p : PlayerGameRow → Bool) (df : List PlayerGameRow) :
    (df.map (fun r => if p r then (1 : ℚ) else 0)).sum = (df.countP p : ℚ) := by
  induction df with
  | nil => simp
  | cons a t ih =>
    rw [List.map_cons, List.sum_cons, List.countP_cons, ih]
    by_cases hpa : p a = true
    · rw [if_pos hpa, if_pos hpa]
      push_cast
      ring
    · rw [if_neg hpa, if_neg hpa]
      push_cast
      ring

/-- Claim C5, counterexample. —  With the prop line exactly equal to the
points scored (both 30), the summary counts a miss — the code's hit flag
is strict `>` — while the claimed "met or exceeded" (`≥`) rule would count
a hit: the produced hit rate is 0, not the claimed 100. -/
theorem hit_rate_threshold_counterexample :
    (hitRow 30 [gameRowEq] seasonLabel).hitRate = some 0
    ∧ roundTo1 (100 * (([gameRowEq].countP (fun r => decide ((30 : ℚ) ≤ r.points))) : ℚ)
        / (([gameRowEq] : List PlayerGameRow).length : ℚ)) = 100
    ∧ (hitRow 30 [gameRowEq] seasonLabel).hitRate
        ≠ some (roundTo1 (100 * (([gameRowEq].countP (fun r => decide ((30 : ℚ) ≤ r.points))) : ℚ)
            / (([gameRowEq] : List PlayerGameRow).length : ℚ))) := by
  have h1 : (hitRow 30 [gameRowEq] seasonLabel).hitRate = some 0 := by
    norm_num [hitRow, hitFlag, gameRowEq, listMean, roundTo1, roundHalfEven]
  have h2 : roundTo1 (100 * (([gameRowEq].countP (fun r => decide ((30 : ℚ) ≤ r.points))) : ℚ)
      / (([gameRowEq] : List PlayerGameRow).length : ℚ)) = 100 := by
    norm_num [gameRowEq, List.countP_cons, roundTo1, roundHalfEven]
  refine ⟨h1, h2, ?_⟩
  rw [h1, h2]
  norm_num

theorem hitRow_label (propLine : ℚ) (df : List PlayerGameRow) (label : List Char) :
    (hitRow propLine df label).label = label := by
  unfold hitRow
  split <;> rfl

theorem hitRow_games (propLine : ℚ) (df : List PlayerGameRow) (label : List Char) :
    (hitRow propLine df label).games = df.length := by
  unfold hitRow
  split
  · next h => exact h.symm
  · rfl

/-- Claim C5, amended. —  Each summary row is (label, cohort size, hit rate)
where the hit rate is null for an empty cohort and otherwise
`100 × hits / games` rounded half-to-even at one decimal — with a hit
defined by the strict inequality `points > prop_line` (points exactly on
the line count as a miss; the bar colouring in src/plots/player.py
separately uses `≥`). -/
theorem hitRow_strict_threshold_formula (propLine : ℚ) (df : List PlayerGameRow)
    (label : List Char) :
    hitRow propLine df label
      = ⟨label, df.length,
          if df.length = 0 then none
          else some (roundTo1 (100 * (df.countP (hitFlag propLine) : ℚ) / (df.length : ℚ)))⟩ := by
  unfold hitRow
  by_cases h : df.length = 0
  · rw [if_pos h, if_pos h, h]
  · rw [if_neg h, if_neg h]
    have harr : listMean (df.map (fun r => if hitFlag propLine r then (1 : ℚ) else 0)) * 100
        = 100 * (df.countP (hitFlag propLine) : ℚ) / (df.length : ℚ) := by
      rw [listMean, List.length_map, sum_indicator]
      ring
    rw [harr]

/-- Claim C7 (code bug). —  Requesting the hit-rate summary for a player id
with zero matching box-score rows does not return an explicit "no data"
result: `.iloc[0]` on the empty filtered frame raises `IndexError` and the
call crashes. -/
theorem summary_raises_on_unknown_player :
    playerHitRateSummary 999 (59 / 2) pbsOther [] [] = Except.error PyErr.indexError := rfl

theorem countP_partition {α : Type} (l : List α) (p q : α → Bool)
    (h : ∀ a ∈ l, q a = !p a) : l.countP p + l.countP q = l.length := by
  induction l with
  | nil => rfl
  | cons a t ih =>
    rw [List.countP_cons, List.countP_cons, List.length_cons]
    have hsum := ih (fun x hx => h x (List.mem_cons_of_mem a hx))
    have ha := h a (List.mem_cons_self a t)
    by_cases hpa : p a = true
    · rw [hpa] at ha
      simp only [Bool.not_true] at ha
      rw [if_pos hpa, if_neg (by simp [ha])]
      omega
    · rw [Bool.not_eq_true] at hpa
      rw [hpa] at ha
      simp only [Bool.not_false] at ha
      rw [if_neg (by simp [hpa]), if_pos ha]
      omega

theorem homeAway_pointwise (m : List Char) :
    decide (homeAway m = ['A', 'W', 'A', 'Y']) = !decide (homeAway m = ['H', 'O', 'M', 'E']) := by
  unfold homeAway
  split <;> simp

/-- Claim C8. —  In the summary of any joined player frame in which every game
carries a definitive win/loss result, the "Home" and "Away" cohort sizes
add up to the "Season (All Games)" cohort size, and so do the "Wins" and
"Losses" cohort sizes. -/
theorem home_away_win_loss_partition (propLine : ℚ) (df : List PlayerGameRow)
    (hwl : ∀ r ∈ df, r.wl = some ['W'] ∨ r.wl = some ['L']) :
    ((summaryRows propLine df).getD 0 default).label = seasonLabel
    ∧ ((summaryRows propLine df).getD 4 default).label = homeLabel
    ∧ ((summaryRows propLine df).getD 5 default).label = awayLabel
    ∧ ((summaryRows propLine df).getD 2 default).label = winsLabel
    ∧ ((summaryRows propLine df).getD 3 default).label = lossesLabel
    ∧ ((summaryRows propLine df).getD 4 default).games
        + ((summaryRows propLine df).getD 5 default).games
      = ((summaryRows propLine df).getD 0 default).games
    ∧ ((summaryRows propLine df).getD 2 default).games
        + ((summaryRows propLine df).getD 3 default).games
      = ((summaryRows propLine df).getD 0 default).games := by
  have e0 : (summaryRows propLine df).getD 0 default = hitRow propLine df seasonLabel := rfl
  have e2 : (summaryRows propLine df).getD 2 default
      = hitRow propLine (df.filter (fun r => decide (r.wl = some ['W']))) winsLabel := rfl
  have e3 : (summaryRows propLine df).getD 3 default
      = hitRow propLine (df.filter (fun r => decide (r.wl = some ['L']))) lossesLabel := rfl
  have e4 : (summaryRows propLine df).getD 4 default
      = hitRow propLine
          (df.filter (fun r => decide (homeAway r.matchup = ['H', 'O', 'M', 'E']))) homeLabel := rfl
  have e5 : (summaryRows propLine df).getD 5 default
      = hitRow propLine
          (df.filter (fun r => decide (homeAway r.matchup = ['A', 'W', 'A', 'Y']))) awayLabel := rfl
  refine ⟨by rw [e0, hitRow_label], by rw [e4, hitRow_label], by rw [e5, hitRow_label],
    by rw [e2, hitRow_label], by rw [e3, hitRow_label], ?_, ?_⟩
  · rw [e0, e4, e5, hitRow_games, hitRow_games, hitRow_games,
      ← List.countP_eq_length_filter, ← List.countP_eq_length_filter]
    exact countP_partition df _ _ (fun r _ => homeAway_pointwise r.matchup)
  · rw [e0, e2, e3, hitRow_games, hitRow_games, hitRow_games,
      ← List.countP_eq_length_filter, ← List.countP_eq_length_filter]
    refine countP_partition df _ _ (fun r hr => ?_)
    rcases hwl r hr with h | h <;> rw [h] <;> simp

/-- Witness for C8 on a one-game frame with a definitive result. -/
theorem home_away_win_loss_partition_witness :
    (∀ r ∈ [gameRowEq], r.wl = some ['W'] ∨ r.wl = some ['L'])
    ∧ (((summaryRows 10 [gameRowEq]).getD 0 default).label = seasonLabel
      ∧ ((summaryRows 10 [gameRowEq]).getD 4 default).label = homeLabel
      ∧ ((summaryRows 10 [gameRowEq]).getD 5 default).label = awayLabel
      ∧ ((summaryRows 10 [gameRowEq]).getD 2 default).label = winsLabel
      ∧ ((summaryRows 10 [gameRowEq]).getD 3 default).label = lossesLabel
      ∧ ((summaryRows 10 [gameRowEq]).getD 4 default).games
          + ((summaryRows 10 [gameRowEq]).getD 5 default).games
        = ((summaryRows 10 [gameRowEq]).getD 0 default).games
      ∧ ((summaryRows 10 [gameRowEq]).getD 2 default).games
          + ((summaryRows 10 [gameRowEq]).getD 3 default).games
        = ((summaryRows 10 [gameRowEq]).getD 0 default).games) :=
  ⟨by decide, home_away_win_loss_partition 10 [gameRowEq] (by decide)⟩

theorem bucket_indicator (r : PlayerGameRow) :
    (if decide (defBucket r.oppDefRank = some topDefLabel) then (1 : ℕ) else 0)
      + (if decide (defBucket r.oppDefRank = some midDefLabel) then (1 : ℕ) else 0)
      + (if decide (defBucket r.oppDefRank = some botDefLabel) then (1 : ℕ) else 0)
      = (if (defBucket r.oppDefRank).isSome then (1 : ℕ) else 0) := by
  rcases hr : r.oppDefRank with _ | v
  · simp [defBucket]
  · simp only [defBucket]
    by_cases h1 : v ≤ 10
    · simp only [if_pos h1]
      decide
    · simp only [if_neg h1]
      by_cases h2 : v ≤ 20
      · simp only [if_pos h2]
        decide
      · simp only [if_neg h2]
        decide

theorem countP_three_buckets (df : List PlayerGameRow) :
    df.countP (fun r => decide (defBucket r.oppDefRank = some topDefLabel))
      + df.countP (fun r => decide (defBucket r.oppDefRank = some midDefLabel))
      + df.countP (fun r => decide (defBucket r.oppDefRank = some botDefLabel))
      = df.countP (fun r => (defBucket r.oppDefRank).isSome) := by
  induction df with
  | nil => rfl
  | cons a t ih =>
    rw [List.countP_cons, List.countP_cons, List.countP_cons, List.countP_cons]
    have hb := bucket_indicator a
    omega

/-- Claim C10. —  A player game whose as-of join attached no opponent
defensive rank gets a null defense bucket and is counted in none of the
three tier cohorts; consequently, whenever at least one such game exists
(for example a game before the first available rank), the three tier
cohort sizes sum to strictly less than the "Season (All Games)" size. -/
theorem null_rank_excluded_from_tiers (propLine : ℚ) (df : List PlayerGameRow)
    (hx : ∃ r ∈ df, r.oppDefRank = none) :
    (∀ r ∈ df, r.oppDefRank = none →
      defBucket r.oppDefRank = none
      ∧ decide (defBucket r.oppDefRank = some topDefLabel) = false
      ∧ decide (defBucket r.oppDefRank = some midDefLabel) = false
      ∧ decide (defBucket r.oppDefRank = some botDefLabel) = false)
    ∧ ((summaryRows propLine df).getD 6 default).games
        + ((summaryRows propLine df).getD 7 default).games
        + ((summaryRows propLine df).getD 8 default).games
      < ((summaryRows propLine df).getD 0 default).games := by
  constructor
  · intro r _ hr
    rw [hr]
    exact ⟨rfl, rfl, rfl, rfl⟩
  · have e0 : (summaryRows propLine df).getD 0 default = hitRow propLine df seasonLabel := rfl
    have e6 : (summaryRows propLine df).getD 6 default
        = hitRow propLine
            (df.filter (fun r => decide (defBucket r.oppDefRank = some topDefLabel)))
            topDefLabel := rfl
    have e7 : (summaryRows propLine df).getD 7 default
        = hitRow propLine
            (df.filter (fun r => decide (defBucket r.oppDefRank = some midDefLabel)))
            midDefLabel := rfl
    have e8 : (summaryRows propLine df).getD 8 default
        = hitRow propLine
            (df.filter (fun r => decide (defBucket r.oppDefRank = some botDefLabel)))
            botDefLabel := rfl
    rw [e0, e6, e7, e8, hitRow_games, hitRow_games, hitRow_games, hitRow_games,
      ← List.countP_eq_length_filter, ← List.countP_eq_length_filter,
      ← List.countP_eq_length_filter, countP_three_buckets]
    rcases hx with ⟨r0, hr0mem, hr0⟩
    have hne : df.countP (fun r => (defBucket r.oppDefRank).isSome) ≠ df.length := by
      intro he
      have := List.countP_eq_length.mp he r0 hr0mem
      rw [hr0] at this
      exact Bool.noConfusion this
    have hle := List.countP_le_length (p := fun r => (defBucket r.oppDefRank).isSome) (l := df)
    omega

/-- Witness for C10 on a two-game frame, one game without an attached
rank. -/
theorem null_rank_excluded_from_tiers_witness :
    (∃ r ∈ [gameRowEq, gameRowNone], r.oppDefRank = none)
    ∧ ((∀ r ∈ [gameRowEq, gameRowNone], r.oppDefRank = none →
        defBucket r.oppDefRank = none
        ∧ decide (defBucket r.oppDefRank = some topDefLabel) = false
        ∧ decide (defBucket r.oppDefRank = some midDefLabel) = false
        ∧ decide (defBucket r.oppDefRank = some botDefLabel) = false)
      ∧ ((summaryRows 10 [gameRowEq, gameRowNone]).getD 6 default).games
          + ((summaryRows 10 [gameRowEq, gameRowNone]).getD 7 default).games
          + ((summaryRows 10 [gameRowEq, gameRowNone]).getD 8 default).games
        < ((summaryRows 10 [gameRowEq, gameRowNone]).getD 0 default).games) :=
  ⟨by decide, null_rank_excluded_from_tiers 10 [gameRowEq, gameRowNone] (by decide)⟩

end NBA
